import Mathlib

/-!
Shallow embedding of the SnapSaverUnofficial repository (src/utils.ts and the
Download/SnapSaverService module) in Lean 4, together with proofs settling the
frozen specification claims.

JavaScript strings are modelled as `List Char` (Unicode scalar sequences); in
the places where the source manipulates raw UTF-16 code units or bytes the
model uses `List Nat` and says so.  Fallible JavaScript operations (thrown
exceptions) are modelled with `Except JsError` / `Option`; a `none` result of
the cipher decode loop models non-termination of the source's inner `while`
scan (the source loops forever there, see `splitAtDelim`).
-/

/-- Model of a thrown JavaScript exception (only its presence matters). -/
def JsError : Type := String

instance : Inhabited JsError := ⟨("error" : String)⟩

instance : DecidableEq JsError := inferInstanceAs (DecidableEq String)

deriving instance DecidableEq for Except

/- ### Generic JavaScript string helpers, modelled over `List Char` -/

/-- JavaScript whitespace test used by `String.prototype.trim` (restricted to
the ASCII whitespace characters that can occur in the payloads handled here). -/
def isWsChar (c : Char) : Bool :=
  c = ' ' || c = '\t' || c = '\n' || c = '\r'

/-- `String.prototype.trim`: drop leading and trailing whitespace. -/
def trimWs (s : List Char) : List Char :=
  ((s.dropWhile isWsChar).reverse.dropWhile isWsChar).reverse

/-- ASCII lower-casing of one character (enough for the case-insensitive
`/get_progressApi/i` regex test, whose pattern is pure ASCII). -/
def asciiLower (c : Char) : Char :=
  if 'A' ≤ c && c ≤ 'Z' then Char.ofNat (c.toNat + 32) else c

/-- Does `pat` occur (case-sensitively) inside `s`?  Model of
`String.prototype.includes`. -/
def containsSub (s pat : List Char) : Bool :=
  match s with
  | [] => pat.isEmpty
  | _ :: rest => pat.isPrefixOf s || containsSub rest pat

/-- Case-insensitive substring containment, the model of
`/pat/ig.test(s)` for a literal ASCII pattern `pat`. -/
def containsCI (s pat : List Char) : Bool :=
  containsSub (s.map asciiLower) (pat.map asciiLower)

/-- JavaScript `a || b` on two possibly-`undefined` strings: an `undefined`
or empty (falsy) left operand selects the right operand. -/
def jsOr (a b : Option (List Char)) : Option (List Char) :=
  match a with
  | some s => if s = [] then b else some s
  | none => b

/-- Fuel-indexed worker for `String.prototype.split` with a non-empty
separator: cut the string at every non-overlapping, leftmost occurrence of
`sep`.  The fuel (always instantiated with the string length, which bounds the
number of steps) keeps the recursion structural. -/
def splitGo (sep : List Char) : Nat → List Char → List (List Char)
  | _, [] => [[]]
  | 0, s => [s]
  | fuel + 1, c :: rest =>
    if sep ≠ [] && sep.isPrefixOf (c :: rest) then
      [] :: splitGo sep fuel ((c :: rest).drop sep.length)
    else
      match splitGo sep fuel rest with
      | p :: ps => (c :: p) :: ps
      | [] => [[c]]

/-- Model of `String.prototype.split` with a string separator. -/
def jsSplit (sep : List Char) (s : List Char) : List (List Char) :=
  if sep = [] then s.map (fun c => [c]) else splitGo sep s.length s

/-- Replace the first occurrence of `pat` in `s` by `rep`: the model of
`String.prototype.replace(pat, rep)` with a *string* first argument. -/
def replaceFirst (s pat rep : List Char) : List Char :=
  match s with
  | [] => []
  | c :: rest =>
    if pat ≠ [] ∧ pat.isPrefixOf (c :: rest) then
      rep ++ (c :: rest).drop pat.length
    else
      c :: replaceFirst rest pat rep

/-- Replace every occurrence of the single character `c` by the string `rep`:
the model of `segment.replace(new RegExp(ch, "g"), rep)` for a character `ch`
that is not a regular-expression metacharacter (the symbol maps sent by the
upstream service are alphanumeric; a metacharacter would alter or abort the
source's `new RegExp` call, a case no claim exercises). -/
def replaceCharAll (c : Char) (rep : List Char) : List Char → List Char
  | [] => []
  | x :: rest =>
    if x = c then rep ++ replaceCharAll c rep rest
    else x :: replaceCharAll c rep rest

/- ### BaseConverter: `decodeNumber` from src/utils.ts -/

/-- The fixed 64-symbol alphabet of `decodeNumber`
(`"0123456789abcdefghijklmnopqrstuvwxyzABCDEFGHIJKLMNOPQRSTUVWXYZ+/"`). -/
def charset : List Char :=
  "0123456789abcdefghijklmnopqrstuvwxyzABCDEFGHIJKLMNOPQRSTUVWXYZ+/".data

/-- The digit-accumulation `reduce` of `decodeNumber`, running over the
*reversed* digit list with explicit position index `i`: a recognised digit
contributes `digitValue * fromBase ^ i`, an unrecognised symbol contributes
nothing (the source checks `indexOf !== -1`). -/
def decodeDigits (fromBase : Nat) (i : Nat) : List Char → Nat
  | [] => 0
  | c :: rest =>
    (if (charset.take fromBase).indexOf c < (charset.take fromBase).length
     then (charset.take fromBase).indexOf c * fromBase ^ i else 0)
    + decodeDigits fromBase (i + 1) rest

/-- The decoding half of `decodeNumber`: `value.split("").reverse().reduce(...)`. -/
def decodePart (value : List Char) (fromBase : Nat) : Nat :=
  decodeDigits fromBase 0 value.reverse

/-- Fuel-indexed worker of the re-encoding `while` loop of `decodeNumber`:
peel off `decimal % toBase` digits, most significant first.  For any
`toBase ≥ 2` the loop runs at most `decimal` iterations, so fuel `decimal`
reproduces the source loop exactly (`encodeGo_eq`); for `toBase < 2` the
source's loop does not terminate and no caller — and no claim — reaches that
case. -/
def encodeGo : Nat → Nat → Nat → List Char
  | 0, _, _ => []
  | fuel + 1, toBase, decimal =>
    if decimal = 0 then []
    else
      encodeGo fuel toBase (decimal / toBase) ++
        [(charset.take toBase).getD (decimal % toBase) '?']

/-- The re-encoding `while` loop of `decodeNumber`. -/
def encodeDigits (toBase : Nat) (decimal : Nat) : List Char :=
  encodeGo decimal toBase decimal

/-- The re-encoding loop including the final `return result || "0"`. -/
def encodeStr (toBase : Nat) (decimal : Nat) : List Char :=
  let d := encodeDigits toBase decimal
  if d = [] then ['0'] else d

/-- `decodeNumber(value, fromBase, toBase)` from src/utils.ts: decode the digit
string in `fromBase`, then re-encode the value in `toBase`. -/
def decodeNumber (value : List Char) (fromBase toBase : Nat) : List Char :=
  encodeStr toBase (decodePart value fromBase)

/- ### UTF-8 decoding (the `TextDecoder("utf-8")` platform API) -/

/-- Is `b` a UTF-8 continuation byte (`0x80`–`0xBF`)? -/
def isCont (b : Nat) : Bool := 0x80 ≤ b && b ≤ 0xBF

/-- Range check for the second byte of a three-byte sequence headed by `b`
(the WHATWG special cases for `0xE0` and `0xED`). -/
def cont2Ok (b b2 : Nat) : Bool :=
  if b = 0xE0 then 0xA0 ≤ b2 && b2 ≤ 0xBF
  else if b = 0xED then 0x80 ≤ b2 && b2 ≤ 0x9F
  else isCont b2

/-- Range check for the second byte of a four-byte sequence headed by `b`
(the WHATWG special cases for `0xF0` and `0xF4`). -/
def cont3Ok (b b2 : Nat) : Bool :=
  if b = 0xF0 then 0x90 ≤ b2 && b2 ≤ 0xBF
  else if b = 0xF4 then 0x80 ≤ b2 && b2 ≤ 0x8F
  else isCont b2

/-- One step of the WHATWG UTF-8 decoder on lead byte `b` followed by `t`:
returns the decoded scalar value (or `none` on a decoding error) and the
bytes at which decoding resumes (the maximal-subpart error rule: on error the
offending byte is *not* consumed). -/
def utf8Step (b : Nat) (t : List Nat) : Option Nat × List Nat :=
  if b < 0x80 then (some b, t)
  else if 0xC2 ≤ b && b ≤ 0xDF then
    match t with
    | [] => (none, [])
    | b2 :: r2 =>
      if isCont b2 then (some ((b - 0xC0) * 0x40 + (b2 - 0x80)), r2)
      else (none, b2 :: r2)
  else if 0xE0 ≤ b && b ≤ 0xEF then
    match t with
    | [] => (none, [])
    | b2 :: r2 =>
      if cont2Ok b b2 then
        match r2 with
        | [] => (none, [])
        | b3 :: r3 =>
          if isCont b3 then
            (some ((b - 0xE0) * 0x1000 + (b2 - 0x80) * 0x40 + (b3 - 0x80)), r3)
          else (none, b3 :: r3)
      else (none, b2 :: r2)
  else if 0xF0 ≤ b && b ≤ 0xF4 then
    match t with
    | [] => (none, [])
    | b2 :: r2 =>
      if cont3Ok b b2 then
        match r2 with
        | [] => (none, [])
        | b3 :: r3 =>
          if isCont b3 then
            match r3 with
            | [] => (none, [])
            | b4 :: r4 =>
              if isCont b4 then
                (some ((b - 0xF0) * 0x40000 + (b2 - 0x80) * 0x1000 +
                  (b3 - 0x80) * 0x40 + (b4 - 0x80)), r4)
              else (none, b4 :: r4)
          else (none, b3 :: r3)
      else (none, b2 :: r2)
  else (none, t)

/-- Fuel-indexed replacing UTF-8 decoder: the behaviour of
`new TextDecoder("utf-8").decode(bytes)` *without* `fatal: true` — every
decoding error emits U+FFFD and decoding continues.  Each step consumes at
least one byte, so fuel `l.length` (as used by `utf8DecodeReplace`) never
runs out. -/
def utf8ReplGo : Nat → List Nat → List Nat
  | _, [] => []
  | 0, _ => []
  | fuel + 1, b :: t =>
    match utf8Step b t with
    | (some cp, r) => cp :: utf8ReplGo fuel r
    | (none, r) => 0xFFFD :: utf8ReplGo fuel r

/-- The WHATWG UTF-8 decoder with U+FFFD replacement on errors. -/
def utf8DecodeReplace (l : List Nat) : List Nat := utf8ReplGo l.length l

/-- Fuel-indexed strict UTF-8 decoder: the behaviour of a *fatal* decoder,
`none` on the first invalid sequence.  `none` characterises byte sequences
that are not valid UTF-8. -/
def utf8StrictGo : Nat → List Nat → Option (List Nat)
  | _, [] => some []
  | 0, _ => none
  | fuel + 1, b :: t =>
    match utf8Step b t with
    | (some cp, r) => (utf8StrictGo fuel r).map (cp :: ·)
    | (none, _) => none

/-- Strict (fatal) UTF-8 decoding; `none` iff the bytes are not valid UTF-8. -/
def utf8DecodeStrict (l : List Nat) : Option (List Nat) := utf8StrictGo l.length l

/- ### SnapSaveDecoder from src (Download module) -/

/-- `fixEncoding(str)`: reinterpret each UTF-16 code unit of the accumulated
string as one raw byte (the `Uint8Array` constructor truncates each value
mod 256) and decode the byte sequence as UTF-8 with the default, *non-fatal*
`TextDecoder`.  Input and output are code-unit/scalar sequences (`List Nat`). -/
def fixEncoding (codeUnits : List Nat) : List Nat :=
  utf8DecodeReplace (codeUnits.map (· % 256))

/-- JavaScript `Number(s)` restricted to the plain non-negative decimal
strings that arise here (`""` gives 0 like `Number("")`); any other shape is
modelled as `none` (`NaN`). -/
def jsToNatOpt (s : List Char) : Option Nat :=
  if s.all (fun c => c.isDigit) then
    some (s.foldl (fun a c => a * 10 + (c.toNat - 48)) 0)
  else none

/-- JavaScript `ToNumber` of the decimal numeral strings produced by
`decodeNumber(_, _, 10)`. -/
def jsParseDecimal (s : List Char) : Nat :=
  s.foldl (fun a c => a * 10 + (c.toNat - 48)) 0

/-- JavaScript `ToUint16`, as applied by `String.fromCharCode`. -/
def jsToUint16 (i : Int) : Nat := (i % 65536).toNat

/-- The inner `while (encodedContent[i] !== charMap[base])` scan of
`decodeSnapApp`, one segment at a time.

* `delim = some c` with `c` occurring in `l`: the segment is everything
  before the first occurrence, and scanning resumes after it.
* `delim = some c` with `c` absent from `l`: past the end of the string
  `encodedContent[i]` is `undefined`, which is never strictly equal to the
  character `c`, so the source's loop increments `i` forever — the model
  returns `none` for this non-termination.
* `delim = none` (i.e. `charMap[base]` is `undefined`, out of range): the
  loop stops at the end of the string, producing one segment that is the
  whole remaining input. -/
def splitAtDelim (delim : Option Char) (l : List Char) : Option (List Char × List Char) :=
  match delim with
  | none => some (l, [])
  | some c =>
    if c ∈ l then some (l.takeWhile (fun x => x != c), (l.dropWhile (fun x => x != c)).drop 1)
    else none

/-- The digit-substitution loop of `decodeSnapApp`: for `j = 0,…` in map
order, globally replace the symbol `charMap[j]` by the decimal numeral of
`j`. -/
def substituteAll (charMap seg : List Char) : List Char :=
  (charMap.enum).foldl (fun s p => replaceCharAll p.2 (Nat.repr p.1).data s) seg

/-- Fuel-indexed model of the outer `for` loop of `decodeSnapApp`: split off
one segment, substitute digits, convert with `decodeNumber(segment, base, 10)`
(whose decimal-numeral result JavaScript's `-` coerces back to its numeric
value, `jsParseDecimal`), subtract `subtractValue` and truncate with
`String.fromCharCode` (`ToUint16`); a `none` `subtractValue` models a `NaN`
subtrahend, for which `fromCharCode(NaN)` yields code unit 0.  Every
iteration consumes at least one input character, so fuel
`encodedContent.length` never runs out; `none` models the source looping
forever inside `splitAtDelim`. -/
def decodeLoop (delim : Option Char) (charMap : List Char) (subtractValue : Option Nat)
    (fromBase : Nat) : Nat → List Char → Option (List Nat)
  | _, [] => some []
  | 0, _ => none
  | fuel + 1, l =>
    match splitAtDelim delim l with
    | none => none
    | some (seg, rest) =>
      let cu : Nat :=
        match subtractValue with
        | some sub =>
          jsToUint16 ((jsParseDecimal (decodeNumber (substituteAll charMap seg) fromBase 10) : Int)
            - (sub : Int))
        | none => 0
      match decodeLoop delim charMap subtractValue fromBase fuel rest with
      | none => none
      | some tail => some (cu :: tail)

/-- `decodeSnapApp(args)` from the Download module: destructure
`[encodedContent, u, charMap, subtractValue, base]`, run the segment loop and
repair the encoding.  The two numeric-string arguments go through
JavaScript's numeric coercion (`jsToNatOpt`; `none` = `NaN`, for which
`charMap[NaN]` is `undefined` and `charset.slice(0, NaN)` is empty).
The result is the decoded scalar sequence, or `none` when the source's inner
scan never terminates. -/
def decodeSnapApp (args : List (List Char)) : Option (List Nat) :=
  let encodedContent := args.getD 0 []
  let charMap := args.getD 2 []
  let subtractValue := jsToNatOpt (args.getD 3 [])
  let baseOpt := jsToNatOpt (args.getD 4 [])
  let delim : Option Char :=
    match baseOpt with
    | some b => charMap[b]?
    | none => none
  match decodeLoop delim charMap subtractValue (baseOpt.getD 0)
      encodedContent.length encodedContent with
  | none => none
  | some codeUnits => some (fixEncoding codeUnits)

/-- The literal call-site marker `"decodeURIComponent(escape(r))}("` used by
`getEncodedSnapApp` (closing brace written with an escape). -/
def markerInvoke : List Char := "decodeURIComponent(escape(r))\x7d(".data

/-- `getEncodedSnapApp(data)`: `data.split(marker)[1].split("))")[0]
.split(",")`, each argument stripped of double quotes and trimmed.  When the
marker is absent, `[1]` is `undefined` and the chained `.split` throws a
`TypeError`. -/
def getEncodedSnapApp (data : List Char) : Except JsError (List (List Char)) :=
  match (jsSplit markerInvoke data)[1]? with
  | none => Except.error "TypeError"
  | some seg =>
    Except.ok ((jsSplit [','] ((jsSplit "))".data seg).headD [])).map
      (fun v => trimWs (v.filter (fun c => c != '"'))))

/-- The literal markers of `getDecodedSnapSave`. -/
def markerHtmlStart : List Char :=
  "getElementById(\"download-section\").innerHTML = \"".data

def markerHtmlEnd : List Char :=
  "\"; document.getElementById(\"inputData\").remove(); ".data

/-- The `.replace(/\\(\\)?/g, "")` unescaping step: every single or double
backslash is removed (a double backslash is matched greedily as one unit). -/
def stripBackslashes : List Char → List Char
  | '\\' :: '\\' :: rest => stripBackslashes rest
  | '\\' :: rest => stripBackslashes rest
  | c :: rest => c :: stripBackslashes rest
  | [] => []

/-- `getDecodedSnapSave(data)`: extract the HTML between the two literal
markers and unescape it.  An absent start marker makes `[1]` `undefined`
and the chained `.split` throws; an absent end marker leaves the whole
remainder (`split` returns the full string as part `[0]`). -/
def getDecodedSnapSave (data : List Char) : Except JsError (List Char) :=
  match (jsSplit markerHtmlStart data)[1]? with
  | none => Except.error "TypeError"
  | some seg =>
    Except.ok (stripBackslashes ((jsSplit markerHtmlEnd seg).headD []))

/-- `SnapSaveDecoder.decrypt(data)`: chain
`getDecodedSnapSave(decodeSnapApp(getEncodedSnapApp(data)))`.  The outer
`Option` is `none` exactly when `decodeSnapApp` does not terminate; the
`Except` carries any thrown error.  `decodeSnapApp`'s scalar output is turned
back into characters (`utf8DecodeReplace` only produces Unicode scalar
values, so `Char.ofNat` is exact here). -/
def decrypt (data : List Char) : Option (Except JsError (List Char)) :=
  match getEncodedSnapApp data with
  | Except.error e => some (Except.error e)
  | Except.ok args =>
    match decodeSnapApp args with
    | none => none
    | some codePoints => some (getDecodedSnapSave (codePoints.map Char.ofNat))

/- ### fixThumbnail and decodeURIComponent from src/utils.ts -/

/-- One hexadecimal digit of a percent escape. -/
def hexVal (c : Char) : Option Nat :=
  if '0' ≤ c && c ≤ '9' then some (c.toNat - 48)
  else if 'a' ≤ c && c ≤ 'f' then some (c.toNat - 87)
  else if 'A' ≤ c && c ≤ 'F' then some (c.toNat - 55)
  else none

/-- Collect the maximal run of consecutive `%XX` escapes into raw bytes;
`none` on a malformed escape (JavaScript throws `URIError`). -/
def grabRun : List Char → Option (List Nat × List Char)
  | '%' :: h1 :: h2 :: rest =>
    match hexVal h1, hexVal h2 with
    | some v1, some v2 =>
      match grabRun rest with
      | some (bs, r) => some ((v1 * 16 + v2) :: bs, r)
      | none => none
    | _, _ => none
  | '%' :: _ => none
  | l => some ([], l)

/-- Fuel-indexed model of `decodeURIComponent`: literal characters pass
through, each maximal run of `%XX` escapes is decoded as strict UTF-8 bytes
(JavaScript throws `URIError` — here `none` — on malformed escapes and on
byte sequences that are not valid UTF-8).  Each step consumes at least one
character, so fuel `s.length` never runs out. -/
def uriGo : Nat → List Char → Option (List Char)
  | _, [] => some []
  | 0, _ => none
  | fuel + 1, '%' :: rest =>
    match grabRun ('%' :: rest) with
    | none => none
    | some (bytes, r) =>
      match utf8DecodeStrict bytes with
      | none => none
      | some cps =>
        match uriGo fuel r with
        | none => none
        | some tail => some (cps.map Char.ofNat ++ tail)
  | fuel + 1, c :: rest =>
    match uriGo fuel rest with
    | none => none
    | some tail => some (c :: tail)

/-- Model of the `decodeURIComponent` platform builtin. -/
def decodeURIComponentM (s : List Char) : Option (List Char) := uriGo s.length s

/-- `fixThumbnail(url)` from src/utils.ts: if the known proxy prefix occurs in
the URL, remove its first occurrence and percent-decode the remainder;
otherwise return the URL unchanged.  `none` models the `URIError` that
`decodeURIComponent` can throw. -/
def fixThumbnail (url : List Char) : Option (List Char) :=
  if containsSub url "https://snapinsta.app/photo.php?photo=".data then
    decodeURIComponentM (replaceFirst url "https://snapinsta.app/photo.php?photo=".data [])
  else some url

/- ### The parsed-document model and MediaExtractor -/

/-- One `<td>` cell of a table row, as seen through the cheerio queries the
extractor issues: its text, the text of its (first) anchor — present in the
DOM but never read by `extractTableMedia` — the `href` of its first anchor
and the `onclick` of its first button (`none` = attribute absent /
`undefined`). -/
structure Cell where
  text : List Char
  aText : List Char
  aHref : Option (List Char)
  btnOnclick : Option (List Char)
deriving DecidableEq

/-- The empty cheerio selection `$td.eq(i)` beyond the row's cells:
`.text()` is `""`, `.attr(...)` is `undefined`. -/
def emptyCell : Cell := ⟨[], [], none, none⟩

/-- One `div.card` element: the concatenated text and first `href` of the
anchors inside its `div.card-body`. -/
structure Card where
  aText : List Char
  aHref : Option (List Char)
deriving DecidableEq

/-- One `div.download-items` element: the thumbnail `img` `src`, the
`href` of the anchor in its button area, and its `span` text. -/
structure DItem where
  thumbSrc : Option (List Char)
  aHref : Option (List Char)
  spanText : List Char
deriving DecidableEq

/-- A parsed HTML document, projected onto exactly the cheerio selector
results the Download module reads: presence of `table.table` and
`article.media > figure`, the `span.video-des` text, the preview image
`src`, the `tbody > tr` rows (as cell lists), the `div.card` and
`div.download-items` collections, and the whole-document `$("a")` /
`$("button")` queries used by the simple layout. -/
structure Doc where
  hasTable : Bool
  hasMediaFigure : Bool
  videoDesText : List Char
  figureImgSrc : Option (List Char)
  rows : List (List Cell)
  cards : List Card
  dlItems : List DItem
  anchorText : List Char
  firstAHref : Option (List Char)
  firstBtnOnclick : Option (List Char)
deriving DecidableEq

instance : Inhabited Doc := ⟨⟨false, false, [], none, [], [], [], [], none, none⟩⟩

/-- A media descriptor (`SnapSaveDownloaderMedia`); absent optional keys are
`none`. -/
structure Media where
  resolution : Option (List Char) := none
  shouldRender : Option Bool := none
  url : Option (List Char) := none
  thumbnail : Option (List Char) := none
  type : List Char := []
deriving DecidableEq

/-- `SnapSaveDownloaderData`: optional description/preview plus media list. -/
structure DownloadData where
  description : Option (List Char) := none
  preview : Option (List Char) := none
  media : List Media := []
deriving DecidableEq

/-- The discriminated response (`SnapSaveDownloaderResponse`): both optional
fields are carried so that the exactly-one-variant claim is a statement, not
a typing triviality. -/
structure Response where
  success : Bool
  message : Option String := none
  data : Option DownloadData := none
deriving DecidableEq

/-- The literal lead of the progress-API call pattern,
`get_progressApi('` (apostrophe written as `Char.ofNat 39`). -/
def leadPA : List Char := "get_progressApi(".data ++ [Char.ofNat 39]

/-- The lazy capture of the regex `get_progressApi\('(.*?)'\)` after its
lead: the characters before the first `')` pair, failing on a newline
(`.` does not match newlines) or when no `')` follows. -/
def paCapture : List Char → Option (List Char)
  | c1 :: c2 :: rest =>
    if c1 = Char.ofNat 39 && c2 = ')' then some []
    else if c1 = '\n' then none
    else (paCapture (c2 :: rest)).map (c1 :: ·)
  | [_] => none
  | [] => none

/-- `exec` of the regex `/get_progressApi\('(.*?)'\)/` on `s`: the first
capture of the leftmost match, `none` when the pattern does not match. -/
def execPA : List Char → Option (List Char)
  | [] => none
  | c :: rest =>
    if leadPA.isPrefixOf (c :: rest) then
      match paCapture ((c :: rest).drop leadPA.length) with
      | some cap => some cap
      | none => execPA rest
    else execPA rest

/-- `MediaExtractor.extractTableMedia`, one `tbody > tr` row: resolution from
the first cell's text, URL from the third cell's anchor `href` or button
`onclick` (JavaScript `||`), the case-insensitive `/get_progressApi/ig` test,
and — when it fires — the URL rewrite
`"https://snapsave.app" + exec(url)?.[1] || url`, in which a failed `exec`
concatenates the string `"undefined"` (and the `||` never selects the old
URL, the concatenation being non-empty).  `type` is `"video"` iff the
resolution text is non-empty (truthy). -/
def rowMedia (tds : List Cell) : Media :=
  let resolution := (tds.getD 0 emptyCell).text
  let mediaUrl0 := jsOr (tds.getD 2 emptyCell).aHref (tds.getD 2 emptyCell).btnOnclick
  let shouldRender := containsCI (mediaUrl0.getD []) "get_progressApi".data
  { resolution := some resolution,
    shouldRender := if shouldRender then some true else none,
    url :=
      if shouldRender then
        some ("https://snapsave.app".data ++
          match execPA (mediaUrl0.getD []) with
          | some cap => cap
          | none => "undefined".data)
      else mediaUrl0,
    type := if resolution ≠ [] then "video".data else "image".data }

def extractTableMedia (doc : Doc) : List Media := doc.rows.map rowMedia

/-- `MediaExtractor.extractCardMedia`, one `div.card`: anchor text
`"Download Photo"` (after trim) gives `type:"image"`, anything else
`"video"`. -/
def cardMedia (c : Card) : Media :=
  { url := c.aHref,
    type := if trimWs c.aText = "Download Photo".data then "image".data else "video".data }

def extractCardMedia (doc : Doc) : List Media := doc.cards.map cardMedia

/-- `MediaExtractor.extractSimpleMedia`: always pushes exactly one item built
from the document-wide first anchor `href` / button `onclick` and the
document-wide anchor text. -/
def extractSimpleMedia (doc : Doc) : List Media :=
  [ { url := jsOr doc.firstAHref doc.firstBtnOnclick,
      type := if trimWs doc.anchorText = "Download Photo".data then "image".data
              else "video".data } ]

/-- `MediaExtractor.extractDownloadItemsMedia`, one `div.download-items`:
span text `"Download Photo"` gives `type:"image"`, else `"video"`; for video
items with a truthy thumbnail the thumbnail goes through `fixThumbnail`
(whose `URIError` — `none` — propagates as a thrown exception). -/
def ditemMedia (it : DItem) : Except JsError Media :=
  let ty := if trimWs it.spanText = "Download Photo".data then "image".data else "video".data
  match it.thumbSrc with
  | some t =>
    if ty = "video".data ∧ t ≠ [] then
      match fixThumbnail t with
      | none => Except.error "URIError"
      | some ft => Except.ok { url := it.aHref, thumbnail := some ft, type := ty }
    else Except.ok { url := it.aHref, type := ty }
  | none => Except.ok { url := it.aHref, type := ty }

def extractDownloadItemsMedia (doc : Doc) : Except JsError (List Media) :=
  doc.dlItems.mapM ditemMedia

/-- `MediaExtractor.extractMetadata`: `span.video-des` text (trimmed) as
`description` and the figure image `src` as `preview`, each set only when
truthy (non-empty). -/
def extractMetadata (doc : Doc) : DownloadData :=
  { description := if trimWs doc.videoDesText ≠ [] then some (trimWs doc.videoDesText) else none,
    preview :=
      match doc.figureImgSrc with
      | some p => if p ≠ [] then some p else none
      | none => none }

/- ### SnapSaverService.download -/

/-- The layout-dispatch of `SnapSaverService.download` (lines choosing among
table / card / simple / download-items extraction), verbatim from the
source's `if`/`else if` chain. -/
def selectMedia (doc : Doc) : Except JsError (List Media) :=
  if doc.hasTable || doc.hasMediaFigure then
    Except.ok
      (if doc.hasTable then extractTableMedia doc
       else if doc.cards.length ≠ 0 then extractCardMedia doc
       else extractSimpleMedia doc)
  else if doc.dlItems.length ≠ 0 then extractDownloadItemsMedia doc
  else Except.ok []

/-- `SnapSaverService.download(url)`.  The two external collaborators are
parameters: `urlValid` is the `UrlValidator.isValid` verdict on the input
URL, `fetchRes` the outcome of the `SnapSaveApiClient.fetchMedia` transport
call (`Except.error` = rejected/thrown), and `loadDoc` the cheerio `load`
parser.  Everything inside the source's `try` that throws lands in the
`catch` branch, which answers `"Failed to process download request"`; the
overall `none` models the call hanging inside `decodeSnapApp`'s unbounded
scan (no response at all). -/
def download (urlValid : Bool) (fetchRes : Except JsError (List Char))
    (loadDoc : List Char → Doc) : Option Response :=
  if urlValid = false then
    some { success := false, message := some "Invalid URL" }
  else
    match fetchRes with
    | Except.error _ =>
      some { success := false, message := some "Failed to process download request" }
    | Except.ok html =>
      match decrypt html with
      | none => none
      | some (Except.error _) =>
        some { success := false, message := some "Failed to process download request" }
      | some (Except.ok decodedHtml) =>
        let doc := loadDoc decodedHtml
        let data := if doc.hasTable || doc.hasMediaFigure then extractMetadata doc
                    else ({} : DownloadData)
        match selectMedia doc with
        | Except.error _ =>
          some { success := false, message := some "Failed to process download request" }
        | Except.ok media =>
          if media.length = 0 then
            some { success := false, message := some "No downloadable media found" }
          else
            some { success := true, data := some { data with media := media } }

/- ### Concrete fixtures used by witnesses -/

/-- A concrete upstream response whose cipher uses `charMap = "0123456789;"`
and `base = "10"` (delimiter `;`, digit substitution the identity on decimal
digits), encoding exactly the decoded-HTML start marker, so that
`decrypt` succeeds and yields the empty HTML fragment. -/
def witnessHtml : List Char :=
  "xxdecodeURIComponent(escape(r))\x7d(\"103;101;116;69;108;101;109;101;110;116;66;121;73;100;40;34;100;111;119;110;108;111;97;100;45;115;101;99;116;105;111;110;34;41;46;105;110;110;101;114;72;84;77;76;32;61;32;34;\", \"x\", \"0123456789;\", \"0\", \"10\"))rest".data

/-- A parsed document carrying only the `article.media > figure` branch-1
marker: no table, no cards, no anchors, no buttons. -/
def witnessDoc : Doc :=
  { hasTable := false, hasMediaFigure := true, videoDesText := [],
    figureImgSrc := none, rows := [], cards := [], dlItems := [],
    anchorText := [], firstAHref := none, firstBtnOnclick := none }

/- ###################################################################### -/
/- ### Lemmas and claim theorems                                      ### -/
/- ###################################################################### -/

lemma charset_nodup : charset.Nodup := by decide

lemma charset_length : charset.length = 64 := by decide

lemma decodeDigits_shift (b : Nat) (l : List Char) :
    ∀ i, decodeDigits b (i + 1) l = b * decodeDigits b i l := by
  induction l with
  | nil => intro i; simp [decodeDigits]
  | cons c rest ih =>
    intro i
    simp only [decodeDigits, ih]
    by_cases hP : (charset.take b).indexOf c < (charset.take b).length
    · simp only [if_pos hP, pow_succ]
      ring
    · simp only [if_neg hP]
      ring

lemma decodePart_snoc (b : Nat) (l : List Char) (c : Char) :
    decodePart (l ++ [c]) b =
      (if (charset.take b).indexOf c < (charset.take b).length
       then (charset.take b).indexOf c else 0) + b * decodePart l b := by
  simp only [decodePart, List.reverse_append, List.reverse_cons, List.reverse_nil,
    List.nil_append, List.cons_append, decodeDigits, pow_zero, mul_one,
    decodeDigits_shift]

lemma take_charset_length {b : Nat} (hb : b ≤ 64) :
    (charset.take b).length = b := by
  rw [List.length_take, charset_length]
  omega

lemma charset_digit_indexOf {b d : Nat} (hb : b ≤ 64) (hd : d < b) :
    (charset.take b).indexOf ((charset.take b).getD d '?') = d := by
  have hlen : d < (charset.take b).length := by rw [take_charset_length hb]; exact hd
  rw [List.getD_eq_getElem _ _ hlen]
  exact List.indexOf_getElem ((charset_nodup).sublist (List.take_sublist b charset)) d hlen

lemma encodeGo_eq {b : Nat} (hb : 2 ≤ b) :
    ∀ d, ∀ fuel, d ≤ fuel → encodeGo fuel b d = encodeGo d b d := by
  intro d
  induction d using Nat.strong_induction_on with
  | _ d ih =>
    intro fuel hle
    by_cases hd : d = 0
    · subst hd
      cases fuel with
      | zero => rfl
      | succ f => simp [encodeGo]
    · obtain ⟨f, rfl⟩ : ∃ f, fuel = f + 1 := ⟨fuel - 1, by omega⟩
      obtain ⟨e, rfl⟩ : ∃ e, d = e + 1 := ⟨d - 1, by omega⟩
      have hdiv : (e + 1) / b < e + 1 := Nat.div_lt_self (by omega) (by omega)
      simp only [encodeGo, if_neg hd]
      rw [ih ((e + 1) / b) hdiv f (by omega), ih ((e + 1) / b) hdiv e (by omega)]

/-- The recurrence the source's `while` loop satisfies for `toBase ≥ 2`. -/
lemma encodeDigits_rec {b : Nat} (hb : 2 ≤ b) (d : Nat) (hd : d ≠ 0) :
    encodeDigits b d =
      encodeDigits b (d / b) ++ [(charset.take b).getD (d % b) '?'] := by
  obtain ⟨e, rfl⟩ : ∃ e, d = e + 1 := ⟨d - 1, by omega⟩
  show encodeGo (e + 1) b (e + 1) = _
  simp only [encodeGo, if_neg hd]
  rw [encodeGo_eq hb ((e + 1) / b) e
    (by have := Nat.div_lt_self (show 0 < e + 1 by omega) (show 1 < b by omega); omega)]
  rfl

lemma encodeDigits_ne_nil {b : Nat} (hb : 2 ≤ b) {d : Nat} (hd : d ≠ 0) :
    encodeDigits b d ≠ [] := by
  rw [encodeDigits_rec hb d hd]
  simp

lemma decodePart_encodeDigits {b : Nat} (hb2 : 2 ≤ b) (hb64 : b ≤ 64) :
    ∀ n, decodePart (encodeDigits b n) b = n := by
  intro n
  induction n using Nat.strong_induction_on with
  | _ n ih =>
    by_cases hn : n = 0
    · subst hn
      simp [encodeDigits, encodeGo, decodePart, decodeDigits]
    · rw [encodeDigits_rec hb2 n hn, decodePart_snoc]
      have hmod : n % b < b := Nat.mod_lt _ (by omega)
      rw [charset_digit_indexOf hb64 hmod,
        if_pos (by rw [take_charset_length hb64]; exact hmod),
        ih (n / b) (Nat.div_lt_self (Nat.pos_of_ne_zero hn) (by omega))]
      exact Nat.mod_add_div n b

lemma decodePart_encodeStr {b : Nat} (hb2 : 2 ≤ b) (hb64 : b ≤ 64) (n : Nat) :
    decodePart (encodeStr b n) b = n := by
  unfold encodeStr
  by_cases hd : encodeDigits b n = []
  · have hzero : n = 0 := by
      by_contra hn
      exact encodeDigits_ne_nil hb2 hn hd
    subst hzero
    simp only [hd, if_pos rfl, decodePart, List.reverse_cons, List.reverse_nil,
      List.nil_append, decodeDigits]
    have h0 : (charset.take b).getD 0 '?' = '0' := by
      have hlen : 0 < (charset.take b).length := by rw [take_charset_length hb64]; omega
      rw [List.getD_eq_getElem _ _ hlen, List.getElem_take]
      rfl
    have := charset_digit_indexOf (b := b) (d := 0) hb64 (by omega)
    rw [h0] at this
    simp [this, take_charset_length hb64]
  · rw [if_neg hd]
    exact decodePart_encodeDigits hb2 hb64 n

/-- C2: round-trip of the BaseConverter.  Encoding a non-negative integer `n`
in any base `b1 ∈ [2,64]`, converting that digit string to base `b2 ∈ [2,64]`
with `decodeNumber`, and converting the result back to base 10 with
`decodeNumber` again, yields exactly the decimal digit string of `n`. -/
theorem decodeNumber_roundtrip (b1 b2 n : Nat)
    (hb1 : 2 ≤ b1) (hb1' : b1 ≤ 64) (hb2 : 2 ≤ b2) (hb2' : b2 ≤ 64) :
    decodeNumber (decodeNumber (encodeStr b1 n) b1 b2) b2 10 = encodeStr 10 n := by
  unfold decodeNumber
  rw [decodePart_encodeStr hb1 hb1' n, decodePart_encodeStr hb2 hb2' n]

/-- Witness for C2 at `b1 = 16`, `b2 = 2`, `n = 255`. -/
theorem decodeNumber_roundtrip_witness :
    decodeNumber (decodeNumber (encodeStr 16 255) 16 2) 2 10 = encodeStr 10 255 :=
  decodeNumber_roundtrip 16 2 255 (by decide) (by decide) (by decide) (by decide)


/- ### C1: the unbounded delimiter scan -/

/-- C1 (code bug): the specification requires that a `cipherText` containing
no occurrence of the delimiter symbol `charMap[base]` makes decoding fail
with `MalformedPayload` within a bound given by the input length; instead the
source's inner `while` scan never terminates (modelled as `none`), for every
such input. -/
theorem decodeSnapApp_unbounded_scan (ct u cm sub base : List Char) (b : Nat) (d : Char)
    (hb : jsToNatOpt base = some b) (hd : cm[b]? = some d)
    (hnotin : d ∉ ct) (hne : ct ≠ []) :
    decodeSnapApp [ct, u, cm, sub, base] = none := by
  obtain ⟨c, rest, rfl⟩ : ∃ c rest, ct = c :: rest := by
    cases ct with
    | nil => exact absurd rfl hne
    | cons c rest => exact ⟨c, rest, rfl⟩
  unfold decodeSnapApp
  simp only [List.getD_cons_zero, List.getD_cons_succ, hb]
  rw [hd]
  simp only [Option.getD_some, List.length_cons]
  have hsplit : splitAtDelim (some d) (c :: rest) = none := by
    simp [splitAtDelim, hnotin]
  rw [show decodeLoop (some d) cm (jsToNatOpt sub) b (rest.length + 1) (c :: rest) =
      none by
    unfold decodeLoop
    rw [hsplit]]

/-- Witness for C1 at the failing input
`cipherText = "abc"`, `charMap = "abcdef"`, `base = "5"` (so the delimiter is
`charMap[5] = 'f'`, which never occurs in the cipher text): the decode loop
never returns. -/
theorem decodeSnapApp_unbounded_scan_witness :
    decodeSnapApp ["abc".data, "x".data, "abcdef".data, "0".data, "5".data] = none :=
  decodeSnapApp_unbounded_scan "abc".data "x".data "abcdef".data "0".data "5".data
    5 'f' (by decide) (by decide) (by decide) (by decide)

/- ### C5: layout priority -/

/-- C5: layout selection is priority ordered.  Whenever the table marker is
present the table branch is selected — in particular for documents that also
carry a download-items structure; whenever any branch-1 marker (table or
figure-captioned metadata structure) is present, the selected extractor is
one of the three branch-1 extractors; and the download-items extractor runs
only when both branch-1 markers are absent. -/
theorem selectMedia_priority (doc : Doc) :
    (doc.hasTable = true → selectMedia doc = Except.ok (extractTableMedia doc))
  ∧ ((doc.hasTable || doc.hasMediaFigure) = true →
      selectMedia doc = Except.ok (extractTableMedia doc) ∨
      selectMedia doc = Except.ok (extractCardMedia doc) ∨
      selectMedia doc = Except.ok (extractSimpleMedia doc))
  ∧ (doc.hasTable = false → doc.hasMediaFigure = false → doc.dlItems.length ≠ 0 →
      selectMedia doc = extractDownloadItemsMedia doc) := by
  refine ⟨?_, ?_, ?_⟩
  · intro ht
    unfold selectMedia
    rw [ht]
    simp
  · intro hor
    unfold selectMedia
    rw [hor]
    by_cases ht : doc.hasTable = true
    · left
      rw [if_pos ht]
      simp
    · by_cases hc : doc.cards.length ≠ 0
      · right; left
        rw [if_neg ht, if_pos hc]
        simp
      · right; right
        rw [if_neg ht, if_neg hc]
        simp
  · intro ht hf hd
    unfold selectMedia
    rw [ht, hf]
    simp only [Bool.or_false, Bool.false_eq_true, if_false, if_pos hd]

/-- Witness for C5 on a document carrying both a `table.table` and a
`div.download-items` structure: the table branch wins. -/
theorem selectMedia_priority_witness :
    selectMedia
        { hasTable := true, hasMediaFigure := false, videoDesText := [],
          figureImgSrc := none, rows := [], cards := [],
          dlItems := [⟨none, none, []⟩], anchorText := [],
          firstAHref := none, firstBtnOnclick := none } =
      Except.ok (extractTableMedia
        { hasTable := true, hasMediaFigure := false, videoDesText := [],
          figureImgSrc := none, rows := [], cards := [],
          dlItems := [⟨none, none, []⟩], anchorText := [],
          firstAHref := none, firstBtnOnclick := none }) :=
  (selectMedia_priority _).1 rfl

/- ### C8: fixThumbnail -/

/-- C8: `fixThumbnail` strips the known proxy prefix and percent-decodes the
remainder on the specification's example input. -/
theorem fixThumbnail_example :
    fixThumbnail
        "https://snapinsta.app/photo.php?photo=https%3A%2F%2Fcdn.example.com%2Fimg.jpg".data =
      some "https://cdn.example.com/img.jpg".data := by
  decide

/- ### C9: exactly one response variant -/

/-- C9: every response produced by `download` populates exactly one variant:
`message` is present iff `success` is `false`, and `data` is present iff
`success` is `true`. -/
theorem download_response_exclusive (v : Bool) (fr : Except JsError (List Char))
    (ld : List Char → Doc) (r : Response) (h : download v fr ld = some r) :
    (r.message.isSome = true ↔ r.success = false)
  ∧ (r.data.isSome = true ↔ r.success = true) := by
  unfold download at h
  split at h
  · cases h
    simp
  · split at h
    · cases h
      simp
    · split at h
      · exact absurd h (by simp)
      · cases h
        simp
      · dsimp only at h
        split at h
        · cases h
          simp
        · split at h
          · cases h
            simp
          · cases h
            simp

/-- Witness for C9 on the `Invalid URL` response. -/
theorem download_response_exclusive_witness :
    ((some "Invalid URL" : Option String).isSome = true ↔ false = false)
  ∧ ((none : Option DownloadData).isSome = true ↔ false = true) :=
  download_response_exclusive false (Except.error "boom") (fun _ => default)
    { success := false, message := some "Invalid URL", data := none } (by decide)

/- ### C3: byte repair never throws, it substitutes U+FFFD -/

lemma utf8Step_sublen (b : Nat) (t : List Nat) : (utf8Step b t).2.length ≤ t.length := by
  unfold utf8Step
  repeat' split
  all_goals simp [List.length_cons]
  all_goals omega

lemma utf8Strict_none_fffd : ∀ fuel (l : List Nat), l.length ≤ fuel →
    utf8StrictGo fuel l = none → 0xFFFD ∈ utf8ReplGo fuel l := by
  intro fuel
  induction fuel with
  | zero =>
    intro l hl hn
    cases l with
    | nil => simp [utf8StrictGo] at hn
    | cons b t => simp at hl
  | succ fuel ih =>
    intro l hl hn
    match l with
    | [] => simp [utf8StrictGo] at hn
    | b :: t =>
      cases hstep : utf8Step b t with
      | mk o r =>
        have hr : r.length ≤ t.length := by
          have := utf8Step_sublen b t
          rw [hstep] at this
          exact this
        cases o with
        | some cp =>
          simp only [utf8StrictGo, hstep] at hn
          have hnone : utf8StrictGo fuel r = none := by
            cases hx : utf8StrictGo fuel r
            · rfl
            · rw [hx] at hn
              simp at hn
          simp only [utf8ReplGo, hstep]
          refine List.mem_cons_of_mem _ (ih r ?_ hnone)
          simp only [List.length_cons] at hl
          omega
        | none =>
          simp only [utf8ReplGo, hstep]
          exact List.mem_cons_self _ _

/-- C3 counterexample: the byte sequence `[0x80]` (a lone continuation byte)
is not valid UTF-8 — the strict decoder rejects it — yet `fixEncoding`
does not fail: it silently returns the replacement character U+FFFD, because
`new TextDecoder("utf-8")` without `fatal: true` never throws. -/
theorem fixEncoding_counterexample :
    utf8DecodeStrict [0x80] = none ∧ fixEncoding [0x80] = [0xFFFD] := by
  decide

/-- C3 as amended: whenever the accumulated code units, reinterpreted as raw
bytes, are not valid UTF-8, the byte-repair step does not raise any error —
it returns text containing the replacement character U+FFFD. -/
theorem fixEncoding_replacement (cus : List Nat)
    (h : utf8DecodeStrict (cus.map (· % 256)) = none) :
    0xFFFD ∈ fixEncoding cus := by
  unfold fixEncoding utf8DecodeReplace
  unfold utf8DecodeStrict at h
  exact utf8Strict_none_fffd _ _ le_rfl h

/-- Witness for the amended C3 at the invalid byte sequence `[0x80]`. -/
theorem fixEncoding_replacement_witness : 0xFFFD ∈ fixEncoding [0x80] :=
  fixEncoding_replacement [0x80] (by decide)

/- ### C10: the simple-layout fallback always returns one descriptor -/

/-- C10: `extractSimpleMedia` returns exactly one media descriptor for every
document; on documents with no anchor and no button that descriptor has no
URL and type `"video"`; consequently a branch-1 document (figure marker
present) with neither table, card, anchor nor button still makes `download`
answer success with one URL-less media item instead of the no-media failure. -/
theorem extractSimpleMedia_always_one :
    (∀ doc : Doc, (extractSimpleMedia doc).length = 1)
  ∧ (∀ doc : Doc, doc.firstAHref = none → doc.firstBtnOnclick = none →
      doc.anchorText = [] →
      extractSimpleMedia doc = [{ url := none, type := "video".data }])
  ∧ (∀ (v : Bool) (fr : Except JsError (List Char)) (ld : List Char → Doc) html dec,
      v = true → fr = Except.ok html → decrypt html = some (Except.ok dec) →
      (ld dec).hasTable = false → (ld dec).hasMediaFigure = true →
      (ld dec).cards = [] → (ld dec).firstAHref = none →
      (ld dec).firstBtnOnclick = none → (ld dec).anchorText = [] →
      ∃ d, download v fr ld = some { success := true, message := none, data := some d } ∧
        d.media = [{ url := none, type := "video".data }]) := by
  refine ⟨fun doc => rfl, ?_, ?_⟩
  · intro doc h1 h2 h3
    unfold extractSimpleMedia
    rw [h1, h2, h3]
    decide
  · intro v fr ld html dec hv hfr hdec ht hf hc ha hb han
    subst hv hfr
    refine ⟨{ extractMetadata (ld dec) with media := [{ url := none, type := "video".data }] },
      ?_, rfl⟩
    unfold download selectMedia extractSimpleMedia
    rw [if_neg (by simp : ¬(true = false))]
    dsimp only
    rw [hdec]
    simp [ht, hf, hc, ha, hb, han, jsOr, trimWs]

set_option maxRecDepth 8000 in
/-- Witness for C10 on the concrete fixture: the whole pipeline succeeds and
returns exactly one URL-less video descriptor. -/
theorem extractSimpleMedia_always_one_witness :
    ∃ d, download true (Except.ok witnessHtml) (fun _ => witnessDoc) =
        some { success := true, message := none, data := some d } ∧
      d.media = [{ url := none, type := "video".data }] :=
  extractSimpleMedia_always_one.2.2 true (Except.ok witnessHtml) (fun _ => witnessDoc)
    witnessHtml [] rfl rfl (by decide) rfl rfl rfl rfl rfl rfl

/- ### C4: internal errors collapse to one generic message -/

/-- C4: every internal throw — transport failure, decode/unwrap exception, or
an extraction-stage exception — makes `download` answer `success:false` with
exactly `"Failed to process download request"`; every response message is one
of the three fixed strings (no raw internal error ever reaches the caller);
`"Invalid URL"` appears only on validation failure and
`"No downloadable media found"` only when the whole pipeline succeeded with
an empty media list. -/
theorem download_error_collapse (v : Bool) (fr : Except JsError (List Char))
    (ld : List Char → Doc) :
    (∀ e, v = true → fr = Except.error e →
      download v fr ld =
        some { success := false, message := some "Failed to process download request",
               data := none })
  ∧ (∀ html e, v = true → fr = Except.ok html → decrypt html = some (Except.error e) →
      download v fr ld =
        some { success := false, message := some "Failed to process download request",
               data := none })
  ∧ (∀ html dec e, v = true → fr = Except.ok html → decrypt html = some (Except.ok dec) →
      selectMedia (ld dec) = Except.error e →
      download v fr ld =
        some { success := false, message := some "Failed to process download request",
               data := none })
  ∧ (∀ r, download v fr ld = some r →
      r.message = none ∨ r.message = some "Invalid URL" ∨
      r.message = some "No downloadable media found" ∨
      r.message = some "Failed to process download request")
  ∧ (∀ r, download v fr ld = some r → r.message = some "Invalid URL" → v = false)
  ∧ (∀ r, download v fr ld = some r → r.message = some "No downloadable media found" →
      ∃ html dec, fr = Except.ok html ∧ decrypt html = some (Except.ok dec) ∧
        selectMedia (ld dec) = Except.ok []) := by
  refine ⟨?_, ?_, ?_, ?_, ?_, ?_⟩
  · intro e hv hfr
    subst hv hfr
    unfold download
    rw [if_neg (by simp : ¬(true = false))]
  · intro html e hv hfr hdec
    subst hv hfr
    unfold download
    rw [if_neg (by simp : ¬(true = false))]
    dsimp only
    rw [hdec]
  · intro html dec e hv hfr hdec hsel
    subst hv hfr
    unfold download
    rw [if_neg (by simp : ¬(true = false))]
    dsimp only
    rw [hdec]
    dsimp only
    rw [hsel]
  · intro r h
    unfold download at h
    split at h
    · cases h
      right; left; rfl
    · split at h
      · cases h
        right; right; right; rfl
      · split at h
        · exact absurd h (by simp)
        · cases h
          right; right; right; rfl
        · dsimp only at h
          split at h
          · cases h
            right; right; right; rfl
          · split at h
            · cases h
              right; right; left; rfl
            · cases h
              left; rfl
  · intro r h hmsg
    unfold download at h
    split at h
    · next hv => exact hv
    · next hv =>
      split at h
      · cases h
        exact absurd hmsg (by decide)
      · split at h
        · exact absurd h (by simp)
        · cases h
          exact absurd hmsg (by decide)
        · dsimp only at h
          split at h
          · cases h
            exact absurd hmsg (by decide)
          · split at h
            · cases h
              exact absurd hmsg (by decide)
            · cases h
              simp at hmsg
  · intro r h hmsg
    unfold download at h
    split at h
    · cases h
      exact absurd hmsg (by decide)
    · split at h
      · cases h
        exact absurd hmsg (by decide)
      · split at h
        · exact absurd h (by simp)
        · cases h
          exact absurd hmsg (by decide)
        · rename_i html odec dec hdec
          dsimp only at h
          split at h
          · cases h
            exact absurd hmsg (by decide)
          · rename_i media hsel
            split at h
            · next hlen =>
              cases h
              refine ⟨html, dec, rfl, hdec, ?_⟩
              rw [hsel, List.length_eq_zero.mp hlen]
            · cases h
              simp at hmsg

/-- Witness for C4: a transport failure yields exactly the generic message. -/
theorem download_error_collapse_witness :
    download true (Except.error "boom") (fun _ => witnessDoc) =
      some { success := false, message := some "Failed to process download request",
             data := none } :=
  (download_error_collapse true (Except.error "boom") (fun _ => witnessDoc)).1 "boom" rfl rfl

/- ### C6: the progress-API URL rewrite -/

lemma paCapture_split : ∀ (t cap : List Char), paCapture t = some cap →
    ∃ u, t = cap ++ Char.ofNat 39 :: ')' :: u := by
  intro t
  induction t with
  | nil => intro cap h; exact Option.noConfusion h
  | cons c1 t ih =>
    intro cap h
    cases t with
    | nil => exact Option.noConfusion h
    | cons c2 rest =>
      simp only [paCapture] at h
      split at h
      · next hcond =>
        obtain ⟨h1, h2⟩ : c1 = Char.ofNat 39 ∧ c2 = ')' := by
          simpa [Bool.and_eq_true, decide_eq_true_eq] using hcond
        cases h
        exact ⟨rest, by rw [h1, h2]; rfl⟩
      · split at h
        · exact absurd h (by simp)
        · cases hx : paCapture (c2 :: rest) with
          | none => rw [hx] at h; simp at h
          | some cap0 =>
            rw [hx] at h
            simp only [Option.map_some', Option.some.injEq] at h
            subst h
            obtain ⟨u, hu⟩ := ih cap0 hx
            exact ⟨u, by rw [List.cons_append, ← hu]⟩

lemma execPA_split : ∀ (s cap : List Char), execPA s = some cap →
    ∃ pre u, s = pre ++ (leadPA ++ (cap ++ Char.ofNat 39 :: ')' :: u)) := by
  intro s
  induction s with
  | nil => intro cap h; simp [execPA] at h
  | cons c rest ih =>
    intro cap h
    simp only [execPA] at h
    split at h
    · next hpre =>
      obtain ⟨t, ht⟩ := List.isPrefixOf_iff_prefix.mp hpre
      split at h
      · rename_i cap0 hcap
        cases h
        have hdrop : (c :: rest).drop leadPA.length = t := by
          rw [← ht, List.drop_left]
        rw [hdrop] at hcap
        obtain ⟨u, hu⟩ := paCapture_split t cap hcap
        exact ⟨[], u, by rw [List.nil_append, ← hu, ht]⟩
      · obtain ⟨pre, u, hu⟩ := ih cap h
        exact ⟨c :: pre, u, by rw [List.cons_append, ← hu]⟩
    · obtain ⟨pre, u, hu⟩ := ih cap h
      exact ⟨c :: pre, u, by rw [List.cons_append, ← hu]⟩

lemma containsSub_of_prefix : ∀ (s t pat : List Char), pat.isPrefixOf t = true →
    containsSub (s ++ t) pat = true := by
  intro s
  induction s with
  | nil =>
    intro t pat h
    cases t with
    | nil =>
      have : pat = [] := by simpa [List.isPrefixOf_iff_prefix] using h
      simp [this, containsSub]
    | cons c r => simp [containsSub, h]
  | cons c s' ih =>
    intro t pat h
    simp [containsSub, ih t pat h]

lemma execPA_containsCI (s cap : List Char) (h : execPA s = some cap) :
    containsCI s "get_progressApi".data = true := by
  obtain ⟨pre, u, rfl⟩ := execPA_split s cap h
  unfold containsCI
  rw [List.map_append]
  apply containsSub_of_prefix
  rw [List.isPrefixOf_iff_prefix]
  have hsplitlead : (leadPA ++ (cap ++ Char.ofNat 39 :: ')' :: u)) =
      "get_progressApi".data ++
        (('(' :: Char.ofNat 39 :: []) ++ (cap ++ Char.ofNat 39 :: ')' :: u)) := by
    rfl
  rw [hsplitlead, List.map_append]
  exact List.prefix_append _ _

/-- C6 counterexample: a row whose action attribute contains
`get_progressApi` without matching the quoted call pattern
(`"get_progressApi(123)"` — no quotes) does *not* use the handler literally:
the extractor still sets `shouldRender` and mangles the URL to
`"https://snapsave.appundefined"` (string concatenation with the `undefined`
result of the failed `exec`). -/
theorem rowMedia_counterexample :
    execPA "get_progressApi(123)".data = none ∧
    (rowMedia [⟨"360p".data, [], none, none⟩, emptyCell,
        ⟨[], [], none, some "get_progressApi(123)".data⟩]).shouldRender = some true ∧
    (rowMedia [⟨"360p".data, [], none, none⟩, emptyCell,
        ⟨[], [], none, some "get_progressApi(123)".data⟩]).url =
      some "https://snapsave.appundefined".data := by
  decide

/-- C6 as amended: for a row whose action attribute matches the full quoted
call pattern `get_progressApi\('(.*?)'\)`, the descriptor gets
`shouldRender = true` and the URL `"https://snapsave.app" ++ captured path`;
an attribute not containing `get_progressApi` (case-insensitively) is used
literally with `shouldRender` absent; but an attribute containing the
substring while not matching the quoted pattern gets `shouldRender = true`
and the URL `"https://snapsave.app" ++ "undefined"`. -/
theorem rowMedia_progressApi (tds : List Cell) (attr : List Char)
    (hattr : jsOr (tds.getD 2 emptyCell).aHref (tds.getD 2 emptyCell).btnOnclick = some attr) :
    (∀ cap, execPA attr = some cap →
      (rowMedia tds).shouldRender = some true ∧
      (rowMedia tds).url = some ("https://snapsave.app".data ++ cap))
  ∧ (containsCI attr "get_progressApi".data = false →
      (rowMedia tds).shouldRender = none ∧ (rowMedia tds).url = some attr)
  ∧ (containsCI attr "get_progressApi".data = true → execPA attr = none →
      (rowMedia tds).shouldRender = some true ∧
      (rowMedia tds).url = some ("https://snapsave.app".data ++ "undefined".data)) := by
  refine ⟨?_, ?_, ?_⟩
  · intro cap hexec
    have hci := execPA_containsCI attr cap hexec
    simp only [rowMedia, hattr]
    simp [hci, hexec]
  · intro hnci
    simp only [rowMedia, hattr]
    simp [hnci]
  · intro hci hexec
    simp only [rowMedia, hattr]
    simp [hci, hexec]

/-- Witness for the amended C6 on a row whose button handler is
`get_progressApi('/action/x')`. -/
theorem rowMedia_progressApi_witness :
    (rowMedia [⟨"720p".data, [], none, none⟩, emptyCell,
        ⟨[], [], none,
          some ("get_progressApi(".data ++ Char.ofNat 39 :: "/action/x".data ++
            Char.ofNat 39 :: ")".data)⟩]).shouldRender = some true ∧
    (rowMedia [⟨"720p".data, [], none, none⟩, emptyCell,
        ⟨[], [], none,
          some ("get_progressApi(".data ++ Char.ofNat 39 :: "/action/x".data ++
            Char.ofNat 39 :: ")".data)⟩]).url =
      some ("https://snapsave.app".data ++ "/action/x".data) :=
  (rowMedia_progressApi
    [⟨"720p".data, [], none, none⟩, emptyCell,
      ⟨[], [], none,
        some ("get_progressApi(".data ++ Char.ofNat 39 :: "/action/x".data ++
          Char.ofNat 39 :: ")".data)⟩]
    ("get_progressApi(".data ++ Char.ofNat 39 :: "/action/x".data ++
      Char.ofNat 39 :: ")".data)
    (by decide)).1 "/action/x".data (by decide)

/- ### C7: type inference -/

lemma ditemMedia_type (it : DItem) (m : Media) (h : ditemMedia it = Except.ok m) :
    m.type = if trimWs it.spanText = "Download Photo".data then "image".data
             else "video".data := by
  unfold ditemMedia at h
  dsimp only at h
  repeat' split at h
  all_goals try exact Except.noConfusion h
  all_goals cases h
  all_goals simp_all

lemma ditems_types : ∀ (l : List DItem) (ms : List Media),
    l.mapM ditemMedia = Except.ok ms →
    ms.map Media.type = l.map
      (fun it => if trimWs it.spanText = "Download Photo".data then "image".data
                 else "video".data) := by
  intro l
  induction l with
  | nil =>
    intro ms h
    simp only [List.mapM_nil, pure, Except.pure] at h
    cases h
    rfl
  | cons it l ih =>
    intro ms h
    rw [List.mapM_cons] at h
    cases hb : ditemMedia it with
    | error e =>
      rw [hb] at h
      simp [Bind.bind, Except.bind] at h
    | ok m =>
      rw [hb] at h
      cases hbs : l.mapM ditemMedia with
      | error e =>
        rw [hbs] at h
        simp [Bind.bind, Except.bind] at h
      | ok ms' =>
        rw [hbs] at h
        simp only [Bind.bind, Except.bind, pure, Except.pure, Except.ok.injEq] at h
        subst h
        simp only [List.map_cons, ih ms' hbs, ditemMedia_type it m hb]

/-- C7 counterexample: in the table layout the anchor text is irrelevant — a
row whose anchor text is exactly `"Download Photo"` but whose resolution cell
is non-empty yields `type:"video"`, contradicting the claim that such an
anchor always yields `type:"image"`. -/
theorem tableMedia_type_counterexample :
    (extractTableMedia
      { hasTable := true, hasMediaFigure := false, videoDesText := [],
        figureImgSrc := none,
        rows := [[⟨"720p".data, "Download Photo".data, some "http://x".data, none⟩]],
        cards := [], dlItems := [], anchorText := "Download Photo".data,
        firstAHref := some "http://x".data, firstBtnOnclick := none }).map Media.type =
      ["video".data] := by
  decide

/-- C7 as amended: the text rule (`"Download Photo"` ↦ image, anything else ↦
video) governs the card, simple and download-items layouts; in the table
layout the type is decided solely by the presence of a non-empty resolution
label (non-empty ↦ video, empty ↦ image), independent of any anchor text. -/
theorem extract_type_inference (doc : Doc) :
    ((extractCardMedia doc).map Media.type =
      doc.cards.map (fun c => if trimWs c.aText = "Download Photo".data then "image".data
                              else "video".data))
  ∧ ((extractSimpleMedia doc).map Media.type =
      [if trimWs doc.anchorText = "Download Photo".data then "image".data else "video".data])
  ∧ (∀ ms, extractDownloadItemsMedia doc = Except.ok ms →
      ms.map Media.type =
        doc.dlItems.map (fun it => if trimWs it.spanText = "Download Photo".data
                                   then "image".data else "video".data))
  ∧ ((extractTableMedia doc).map Media.type =
      doc.rows.map (fun tds => if (tds.getD 0 emptyCell).text ≠ [] then "video".data
                               else "image".data)) := by
  refine ⟨?_, rfl, ?_, ?_⟩
  · unfold extractCardMedia
    rw [List.map_map]
    rfl
  · intro ms h
    exact ditems_types doc.dlItems ms h
  · unfold extractTableMedia
    rw [List.map_map]
    rfl

/-- Witness for the amended C7 on one concrete download-items document. -/
theorem extract_type_inference_witness :
    ([({ url := none, type := "video".data } : Media)]).map Media.type =
      ([({ thumbSrc := none, aHref := none, spanText := "Get Video".data } : DItem)]).map
        (fun it => if trimWs it.spanText = "Download Photo".data then "image".data
                   else "video".data) :=
  (extract_type_inference
    { hasTable := false, hasMediaFigure := false, videoDesText := [],
      figureImgSrc := none, rows := [], cards := [],
      dlItems := [⟨none, none, "Get Video".data⟩], anchorText := [],
      firstAHref := none, firstBtnOnclick := none }).2.2.1
    [{ url := none, type := "video".data }] (by decide)
